import Mathlib

/-!
Shallow embedding of the beven-backend caching subsystem
(src/middleware/cache.js and src/middleware/cache-redis.js) and proofs of
the specified properties of key derivation, invalidation, the cache gate
middleware, and the redis health state machine.
-/

namespace BevenCache

/-- JavaScript values as they occur in request parameters and cached
payloads: strings, (integer) numbers, booleans, null, undefined, and
opaque objects (distinguished by a tag so distinct payloads stay distinct). -/
inductive JSValue where
  | str (s : String)
  | num (n : Int)
  | bool (b : Bool)
  | nullV
  | undefinedV
  | obj (tag : Nat)
  deriving DecidableEq, Repr

/-- Stringification of a value inside a template literal, as in the
source expression \x60${key}=${params[key]}\x60: undefined prints as
"undefined", null as "null", numbers in decimal. -/
def JSValue.toTemplateString : JSValue → String
  | .str s => s
  | .num n => toString n
  | .bool b => cond b "true" "false"
  | .nullV => "null"
  | .undefinedV => "undefined"
  | .obj _ => "[object Object]"

/-- JavaScript truthiness: empty string, 0, false, null and undefined are
falsy; objects are always truthy. -/
def JSValue.truthy : JSValue → Bool
  | .str s => decide (s ≠ "")
  | .num n => decide (n ≠ 0)
  | .bool b => b
  | .nullV => false
  | .undefinedV => false
  | .obj _ => true

/-- A JavaScript object used as a parameter map: association list in
insertion order. A real JS object never has duplicate keys; theorems that
need this take a Nodup hypothesis on the mapped keys. -/
def Params := List (String × JSValue)

/-- Lexicographic comparison of character lists by code point, the order
the default JavaScript Array.prototype.sort comparator induces on
strings. -/
def charListLe : List Char → List Char → Bool
  | [], _ => true
  | _ :: _, [] => false
  | a :: as, b :: bs =>
    if a < b then true else if b < a then false else charListLe as bs

/-- String order used by the .sort() call in generateCacheKey. -/
def KeyOrder (a b : String) : Prop := charListLe a.data b.data = true

instance : DecidableRel KeyOrder := fun a b =>
  inferInstanceAs (Decidable (charListLe a.data b.data = true))

/-- Property lookup params[k]: the value of the first entry with key k,
or undefined when the key is absent (JS returns undefined for a missing
property). -/
def jsGet (params : List (String × JSValue)) (k : String) : JSValue :=
  match params.find? (fun p => p.1 = k) with
  | some p => p.2
  | none => .undefinedV

/-- Embedding of generateCacheKey from src/middleware/cache.js lines
17-29 (identical in cache-redis.js lines 72-84): sort the own property
names, join name=value pairs with &, and return
user:<userId>:<endpoint> with the parameter string appended after a colon
when it is nonempty. The tenant id is embedded via its template-literal
string form, so it is modelled as the String it stringifies to. -/
def generateCacheKey (userId : String) (endpoint : String)
    (params : List (String × JSValue)) : String :=
  let sortedKeys := (params.map Prod.fst).insertionSort KeyOrder
  let paramString := String.intercalate "&"
    (sortedKeys.map (fun k => k ++ "=" ++ (jsGet params k).toTemplateString))
  "user:" ++ userId ++ ":" ++ endpoint ++
    (if paramString = "" then "" else ":" ++ paramString)

example : generateCacheKey "1" "budgets" [] = "user:1:budgets" := by decide

example : generateCacheKey "1" "budgets" [("limit", .num 10)]
    = "user:1:budgets:limit=10" := by decide

example : generateCacheKey "1" "budgets" [("limit", .undefinedV)]
    = "user:1:budgets:limit=undefined" := by decide

example : generateCacheKey "1" "budgets" [("b", .num 2), ("a", .num 1)]
    = "user:1:budgets:a=1&b=2" := by decide

/-- State of the in-process node-cache store: stored entries as
(key, value, ttl seconds). Expiry timing is outside every claim proved
here; the ttl is carried for fidelity of the set call. -/
structure CacheState where
  entries : List (String × JSValue × Nat)
  deriving DecidableEq, Repr

/-- Lookup cache.get(k): value of the stored entry, undefined when the
key is absent (node-cache get returns undefined on a miss). -/
def getEntry (l : List (String × JSValue × Nat)) (k : String) : JSValue :=
  match l.find? (fun p => p.1 = k) with
  | some p => p.2.1
  | none => .undefinedV

/-- Store cache.set(k, v, ttl): overwrite any existing entry under k. -/
def setEntry (l : List (String × JSValue × Nat)) (k : String) (v : JSValue)
    (ttl : Nat) : List (String × JSValue × Nat) :=
  (k, v, ttl) :: l.filter (fun p => !(p.1 = k : Bool))

/-- Replace the first occurrence of the character * by the two characters
.* as the source expression pattern.replace(Star, DotStar) does:
String.prototype.replace with a plain string argument rewrites only the
first occurrence. -/
def replaceFirstStarChars : List Char → List Char
  | [] => []
  | c :: cs => if c = '*' then '.' :: '*' :: cs else c :: replaceFirstStarChars cs

/-- String version of replaceFirstStarChars. -/
def replaceFirstStar (s : String) : String := ⟨replaceFirstStarChars s.data⟩

/-- Atom of the regular-expression dialect the invalidation patterns use
once converted: a literal character or the dot metacharacter matching any
character. Patterns built by invalidateUserCache contain no other
metacharacters when the user id and endpoint avoid them; theorems over
arbitrary ids carry that hypothesis. -/
inductive RAtom where
  | lit (c : Char)
  | dot
  deriving DecidableEq, Repr

/-- Piece of a parsed pattern: an atom, possibly starred
(zero-or-more repetitions). -/
structure RPiece where
  atom : RAtom
  starred : Bool
  deriving DecidableEq, Repr

/-- Parse a pattern character list, attaching a following * to the atom
before it. -/
def parseRegex : List Char → List RPiece
  | [] => []
  | c :: '*' :: rest =>
    ⟨if c = '.' then RAtom.dot else RAtom.lit c, true⟩ :: parseRegex rest
  | c :: cs =>
    ⟨if c = '.' then RAtom.dot else RAtom.lit c, false⟩ :: parseRegex cs

/-- Does one atom match one character. -/
def atomMatch : RAtom → Char → Bool
  | .lit c, d => c = d
  | .dot, _ => true

/-- Zero-or-more repetitions of one atom followed by the continuation:
either the continuation matches right here, or one more character
matching the atom is consumed. -/
def starLoop (a : RAtom) (next : List Char → Bool) : List Char → Bool
  | [] => next []
  | c :: cs => next (c :: cs) || (atomMatch a c && starLoop a next cs)

/-- Match a parsed pattern against the head of a character list; the
pattern need not consume the whole list, as with a regular expression
not ending in an end anchor. -/
def matchHere : List RPiece → List Char → Bool
  | [], _ => true
  | ⟨_, false⟩ :: _, [] => false
  | ⟨a, false⟩ :: ps, c :: cs => atomMatch a c && matchHere ps cs
  | ⟨a, true⟩ :: ps, cs => starLoop a (matchHere ps) cs

/-- Unanchored search, as String.prototype.match performs with a pattern
that has no start anchor: try to match at every position. -/
def searchFrom (ps : List RPiece) : List Char → Bool
  | [] => matchHere ps []
  | c :: cs => matchHere ps (c :: cs) || searchFrom ps cs

/-- Does key.match(pattern) find a match. -/
def jsMatchTest (pattern key : String) : Bool :=
  searchFrom (parseRegex pattern.data) key.data

/-- Embedding of invalidateUserCache from src/middleware/cache.js lines
65-76 (the in-memory branch of cache-redis.js lines 138-158 is the same
code): build the pattern user:<id>:<endpoint>* (or user:<id>:* when the
endpoint argument is absent or falsy), turn it into a regular expression
by replacing the first * with .*, and delete every key the unanchored
search matches. -/
def invalidateUserCache (state : CacheState) (userId : String)
    (endpoint : Option String) : CacheState :=
  let pattern :=
    match endpoint with
    | some e =>
      if e = "" then "user:" ++ userId ++ ":*"
      else "user:" ++ userId ++ ":" ++ e ++ "*"
    | none => "user:" ++ userId ++ ":*"
  let rx := replaceFirstStar pattern
  ⟨state.entries.filter (fun p => ! jsMatchTest rx p.1)⟩

/-- The authenticated user object the auth middleware attaches to the
request; its id is carried in the string form the template literal
embeds. -/
structure ReqUser where
  id : String
  deriving DecidableEq, Repr

/-- The parts of a fastify request the cache middleware reads. -/
structure Request where
  method : String
  user : Option ReqUser
  query : List (String × JSValue)
  pathParams : List (String × JSValue)
  routerPath : String

/-- Options object passed to cacheMiddleware; keyGenerator is a possibly
throwing callback, embedded as Except. -/
structure CacheOptions where
  endpoint : Option String
  ttl : Option Nat
  keyGenerator : Option (Request → Except String String)

/-- JavaScript a || b for a string a: b when a is absent or empty. -/
def jsOrStr (o : Option String) (d : String) : String :=
  match o with
  | some s => if s = "" then d else s
  | none => d

/-- JavaScript a || b for a number a: b when a is absent or zero. -/
def jsOrNat (o : Option Nat) (d : Nat) : Nat :=
  match o with
  | some n => if n = 0 then d else n
  | none => d

/-- Object spread merge with query first and route params second, as the
map it denotes: route params win on shared keys, remaining query keys are
kept. -/
def spreadMerge (a b : List (String × JSValue)) : List (String × JSValue) :=
  a.filter (fun p => b.find? (fun q => q.1 = p.1) = none) ++ b

/-- One backend operation the gate performs, recorded for the frame
properties. -/
inductive BackendOp where
  | get (key : String)
  | set (key : String)
  deriving DecidableEq, Repr

/-- Outcome of one request through the gate: final cache state, whether
the wrapped handler ran, the response sent, and the trace of backend
operations. -/
structure GateResult where
  state : CacheState
  handlerRan : Bool
  responseStatus : Nat
  responseBody : JSValue
  backendOps : List BackendOp
  deriving DecidableEq, Repr

/-- Embedding of cacheMiddleware from src/middleware/cache.js lines
85-133 together with the request lifecycle it instruments: handler is the
(status, body) the route handler would produce when it runs. On a truthy
hit the handler never runs and the cached payload is sent (reply has its
default 200 status). On a miss the handler runs and the overridden
reply.send stores the body exactly when the status code is 2xx. The
middleware body contains no try/catch, so an error thrown by a custom
keyGenerator is the result of the whole request. -/
def cacheMiddleware (options : CacheOptions) (req : Request)
    (handler : Nat × JSValue) (cache : CacheState) :
    Except String GateResult :=
  if req.method ≠ "GET" then
    .ok ⟨cache, true, handler.1, handler.2, []⟩
  else
    match req.user with
    | none => .ok ⟨cache, true, handler.1, handler.2, []⟩
    | some u =>
      if u.id = "" then .ok ⟨cache, true, handler.1, handler.2, []⟩
      else
        let endpoint := jsOrStr options.endpoint req.routerPath
        let ttl := jsOrNat options.ttl 600
        let keyResult :=
          match options.keyGenerator with
          | some g => g req
          | none =>
            Except.ok
              (generateCacheKey u.id endpoint (spreadMerge req.query req.pathParams))
        match keyResult with
        | .error e => .error e
        | .ok cacheKey =>
          let cachedData := getEntry cache.entries cacheKey
          if cachedData.truthy then
            .ok ⟨cache, false, 200, cachedData, [.get cacheKey]⟩
          else if 200 ≤ handler.1 ∧ handler.1 < 300 then
            .ok ⟨⟨setEntry cache.entries cacheKey handler.2 ttl⟩, true,
                 handler.1, handler.2, [.get cacheKey, .set cacheKey]⟩
          else
            .ok ⟨cache, true, handler.1, handler.2, [.get cacheKey]⟩

/-- Backend health, named as the spec names it. -/
inductive HealthState where
  | REMOTE_ACTIVE
  | LOCAL_FALLBACK
  deriving DecidableEq, Repr

/-- A remote command kind. -/
inductive RedisOp where
  | get
  | set
  | del
  deriving DecidableEq, Repr

/-- Events observable on the redisClient handle of
src/middleware/cache-redis.js: a client-level error event (lines 47-50,
whose handler assigns redisClient = null), a per-command error caught by
the catch blocks of getCachedData, setCachedData and invalidateUserCache
(lines 97-101, 121-124, 144-148, which fall back to the in-memory cache
for that one call), and a successful command. -/
inductive RedisEvent where
  | clientError
  | cmdError (op : RedisOp)
  | cmdOk (op : RedisOp)
  deriving DecidableEq, Repr

/-- Process-wide backend selector state: whether redisClient is non-null
and open. -/
structure RedisState where
  clientConnected : Bool
  deriving DecidableEq, Repr

/-- Transition on one event, read off the source: only the client error
event nulls redisClient; the per-command catch blocks leave the client
untouched; nothing after startup ever re-creates the client. -/
def redisStep (s : RedisState) : RedisEvent → RedisState
  | .clientError => ⟨false⟩
  | .cmdError _ => s
  | .cmdOk _ => s

/-- Health read off the selector state, as the condition
redisClient && redisClient.isOpen decides which backend serves a call. -/
def health (s : RedisState) : HealthState :=
  cond s.clientConnected .REMOTE_ACTIVE .LOCAL_FALLBACK

/-- Run a trace of events. -/
def redisRun (s : RedisState) (events : List RedisEvent) : RedisState :=
  events.foldl redisStep s

/-- Tail of a derived key after the endpoint: empty for an empty
parameter map, otherwise a colon and the sorted name=value pairs. -/
def keyTail (params : List (String × JSValue)) : String :=
  let sortedKeys := (params.map Prod.fst).insertionSort KeyOrder
  let paramString := String.intercalate "&"
    (sortedKeys.map (fun k => k ++ "=" ++ (jsGet params k).toTemplateString))
  if paramString = "" then "" else ":" ++ paramString

/-- Sorted name=value pair strings of a parameter map, as they appear in
the derived key. -/
def sortedParamPairs (params : List (String × JSValue)) : List String :=
  ((params.map Prod.fst).insertionSort KeyOrder).map
    (fun k => k ++ "=" ++ (jsGet params k).toTemplateString)

/-- Structural shape of a derived key, following the wording of the
data-model section of the spec but with the prefix the code actually
writes. -/
def specKeyShape (tenantId endpoint : String) (pairs : List String) : String :=
  let joined := String.intercalate "&" pairs
  "user:" ++ tenantId ++ ":" ++ endpoint ++
    (if joined = "" then "" else ":" ++ joined)

/-- Strings with equal character data are equal. -/
theorem string_data_inj {a b : String} (h : a.data = b.data) : a = b := by
  cases a
  cases b
  exact congrArg String.mk (by simpa using h)

/-- Derived keys decompose as a fixed head followed by the parameter
tail. -/
theorem generateCacheKey_decompose (userId endpoint : String)
    (params : List (String × JSValue)) :
    generateCacheKey userId endpoint params
      = "user:" ++ userId ++ ":" ++ endpoint ++ keyTail params := rfl

/-- C1: for distinct tenant identities and identical endpoint and
parameter map, the derived cache keys differ. -/
theorem C1_distinct_tenants_distinct_keys (A B e : String)
    (p : List (String × JSValue)) (h : A ≠ B) :
    generateCacheKey A e p ≠ generateCacheKey B e p := by
  intro he
  apply h
  rw [generateCacheKey_decompose, generateCacheKey_decompose] at he
  have hd := congrArg String.data he
  simp only [String.data_append, List.append_assoc] at hd
  have h2 := List.append_cancel_left hd
  exact string_data_inj (List.append_cancel_right h2)

/-- C1 witness: tenants 1 and 2 with the same endpoint and empty
parameters derive different keys. -/
theorem C1_witness :
    ("1" : String) ≠ "2" ∧
      generateCacheKey "1" "budgets" [] ≠ generateCacheKey "2" "budgets" [] :=
  ⟨by decide, C1_distinct_tenants_distinct_keys "1" "2" "budgets" [] (by decide)⟩

/-- C8: concrete key-derivation scenarios: the empty parameter map gives
the bare form with no trailing separator, a parameter appears as
name=value, a different value gives a different key, and an undefined
value produces the literal string undefined instead of being dropped. -/
theorem C8_concrete_scenarios :
    generateCacheKey "1" "budgets" [] = "user:1:budgets" ∧
    generateCacheKey "1" "budgets" [("limit", .num 10)]
      = "user:1:budgets:limit=10" ∧
    generateCacheKey "1" "budgets" [("limit", .num 20)]
      ≠ generateCacheKey "1" "budgets" [("limit", .num 10)] ∧
    generateCacheKey "1" "budgets" [("limit", .undefinedV)]
      = "user:1:budgets:limit=undefined" :=
  ⟨by decide, by decide, by decide, by decide⟩

/-- C7 counterexample: the derived key for tenant 1 and endpoint budgets
does not begin with the literal segment the claim names; the code writes
a user segment instead. -/
theorem C7_counterexample :
    ("tenant:".data.isPrefixOf (generateCacheKey "1" "budgets" []).data) = false := by
  decide

/-- Head characterization of the lexicographic comparison. -/
theorem charListLe_cons_iff {a b : Char} {as bs : List Char} :
    charListLe (a :: as) (b :: bs) = true
      ↔ a < b ∨ (a = b ∧ charListLe as bs = true) := by
  have hdef : charListLe (a :: as) (b :: bs)
      = if a < b then true else if b < a then false else charListLe as bs := rfl
  rw [hdef]
  by_cases h1 : a < b
  · simp [h1]
  · by_cases h2 : b < a
    · have hne : a ≠ b := fun hh => absurd h2 (by rw [hh]; exact lt_irrefl b)
      simp [h1, h2, hne]
    · have hab : a = b := le_antisymm (not_lt.mp h2) (not_lt.mp h1)
      simp [h1, h2, hab]

/-- Totality of the comparison. -/
theorem charListLe_total : ∀ as bs : List Char,
    charListLe as bs = true ∨ charListLe bs as = true
  | [], _ => Or.inl rfl
  | _ :: _, [] => Or.inr rfl
  | a :: as, b :: bs => by
    rcases lt_trichotomy a b with h | h | h
    · exact Or.inl (charListLe_cons_iff.mpr (Or.inl h))
    · rcases charListLe_total as bs with ih | ih
      · exact Or.inl (charListLe_cons_iff.mpr (Or.inr ⟨h, ih⟩))
      · exact Or.inr (charListLe_cons_iff.mpr (Or.inr ⟨h.symm, ih⟩))
    · exact Or.inr (charListLe_cons_iff.mpr (Or.inl h))

/-- Transitivity of the comparison. -/
theorem charListLe_trans : ∀ as bs cs : List Char,
    charListLe as bs = true → charListLe bs cs = true →
      charListLe as cs = true
  | [], _, _, _, _ => rfl
  | _ :: _, [], _, h1, _ => by simp [charListLe] at h1
  | _ :: _, _ :: _, [], _, h2 => by simp [charListLe] at h2
  | a :: as, b :: bs, c :: cs, h1, h2 => by
    rcases charListLe_cons_iff.mp h1 with hab | ⟨hab, h1x⟩
    · rcases charListLe_cons_iff.mp h2 with hbc | ⟨hbc, h2x⟩
      · exact charListLe_cons_iff.mpr (Or.inl (hab.trans hbc))
      · exact charListLe_cons_iff.mpr (Or.inl (hbc ▸ hab))
    · rcases charListLe_cons_iff.mp h2 with hbc | ⟨hbc, h2x⟩
      · exact charListLe_cons_iff.mpr (Or.inl (hab ▸ hbc))
      · exact charListLe_cons_iff.mpr
          (Or.inr ⟨hab.trans hbc, charListLe_trans as bs cs h1x h2x⟩)

/-- Antisymmetry of the comparison. -/
theorem charListLe_antisymm : ∀ as bs : List Char,
    charListLe as bs = true → charListLe bs as = true → as = bs
  | [], [], _, _ => rfl
  | [], _ :: _, _, h2 => by simp [charListLe] at h2
  | _ :: _, [], h1, _ => by simp [charListLe] at h1
  | a :: as, b :: bs, h1, h2 => by
    rcases charListLe_cons_iff.mp h1 with hab | ⟨hab, h1x⟩
    · rcases charListLe_cons_iff.mp h2 with hba | ⟨hba, _⟩
      · exact absurd (hab.trans hba) (lt_irrefl a)
      · exact absurd (hba ▸ hab : a < a) (lt_irrefl a)
    · rcases charListLe_cons_iff.mp h2 with hba | ⟨hba, h2x⟩
      · subst hab
        exact absurd hba (lt_irrefl a)
      · rw [hab, charListLe_antisymm as bs h1x h2x]

instance : IsTotal String KeyOrder :=
  ⟨fun a b => charListLe_total a.data b.data⟩

instance : IsTrans String KeyOrder :=
  ⟨fun a b c => charListLe_trans a.data b.data c.data⟩

instance : IsAntisymm String KeyOrder :=
  ⟨fun a b h1 h2 => string_data_inj (charListLe_antisymm a.data b.data h1 h2)⟩

/-- C7 amended: every derived key has the structural shape
user:<tenantId>:<endpoint> followed, when parameters are present, by a
colon and the name=value pairs sorted by name; in particular it begins
with the user segment and the tenant id. -/
theorem C7_amended_key_structure (t e : String)
    (p : List (String × JSValue)) :
    generateCacheKey t e p = specKeyShape t e (sortedParamPairs p) ∧
    (∃ rest, generateCacheKey t e p = "user:" ++ t ++ ":" ++ e ++ rest) ∧
    List.Sorted KeyOrder ((p.map Prod.fst).insertionSort KeyOrder) :=
  ⟨rfl, ⟨keyTail p, generateCacheKey_decompose t e p⟩,
    List.sorted_insertionSort KeyOrder (p.map Prod.fst)⟩

/-- The key the gate derives for a request without a custom generator. -/
def derivedKey (options : CacheOptions) (req : Request) (u : ReqUser) :
    String :=
  generateCacheKey u.id (jsOrStr options.endpoint req.routerPath)
    (spreadMerge req.query req.pathParams)

/-- Reading back a freshly stored entry yields the stored value. -/
theorem getEntry_setEntry_self (l : List (String × JSValue × Nat))
    (k : String) (v : JSValue) (ttl : Nat) :
    getEntry (setEntry l k v ttl) k = v := by
  unfold getEntry setEntry
  rw [List.find?_cons_of_pos]
  simp

/-- C5 counterexample: a caught operational error on a single remote get
call leaves the backend health in its remote state instead of demoting
it. -/
theorem C5_counterexample :
    health (redisStep ⟨true⟩ (.cmdError .get)) ≠ HealthState.LOCAL_FALLBACK := by
  decide

/-- C5 amended: only a client-level error event demotes the health state
to LOCAL_FALLBACK; a caught per-command error on get, set or delete
leaves the selector state unchanged (that single call falls back to the
in-memory store); and once in LOCAL_FALLBACK no trace of further events
ever returns the state to REMOTE_ACTIVE. -/
theorem C5_amended_demotion_permanent :
    (∀ s : RedisState, health (redisStep s .clientError) = .LOCAL_FALLBACK) ∧
    (∀ (s : RedisState) (op : RedisOp), redisStep s (.cmdError op) = s) ∧
    (∀ (s : RedisState) (events : List RedisEvent),
        health s = .LOCAL_FALLBACK →
          health (redisRun s events) = .LOCAL_FALLBACK) := by
  refine ⟨fun _ => rfl, fun _ _ => rfl, ?_⟩
  intro s events h
  induction events generalizing s with
  | nil => exact h
  | cons ev evs ih =>
    show health (redisRun (redisStep s ev) evs) = _
    apply ih
    cases ev with
    | clientError => rfl
    | cmdError op => exact h
    | cmdOk op => exact h

/-- C5 witness: a demoted state stays demoted across a trace containing
successful commands, command errors and another client error. -/
theorem C5_witness :
    health (redisRun ⟨false⟩ [.cmdOk .get, .cmdError .set, .clientError])
      = HealthState.LOCAL_FALLBACK :=
  C5_amended_demotion_permanent.2.2 ⟨false⟩
    [.cmdOk .get, .cmdError .set, .clientError] rfl

/-- C4 counterexample: a key generator that throws makes the gate reject
the request; the wrapped handler never executes and the cache-layer error
becomes the request outcome. -/
theorem C4_counterexample :
    cacheMiddleware ⟨some "budgets", some 60, some (fun _ => .error "boom")⟩
      ⟨"GET", some ⟨"1"⟩, [], [], "/budgets"⟩ (200, .obj 5) ⟨[]⟩
      = .error "boom" := rfl

/-- C4 amended: the middleware body has no try/catch, so an error thrown
while deriving the key (a throwing custom key generator) propagates out
of the gate as the request outcome; the handler does not execute and the
request fails. -/
theorem C4_amended_keygen_error_propagates (options : CacheOptions)
    (req : Request) (handler : Nat × JSValue) (cache : CacheState)
    (g : Request → Except String String) (msg : String) (u : ReqUser)
    (hm : req.method = "GET") (hu : req.user = some u) (hid : u.id ≠ "")
    (hg : options.keyGenerator = some g) (hge : g req = .error msg) :
    cacheMiddleware options req handler cache = .error msg := by
  simp [cacheMiddleware, hm, hu, hid, hg, hge]

/-- C4 witness: concrete throwing key generator on a GET request with a
tenant. -/
theorem C4_witness :
    cacheMiddleware ⟨none, none, some (fun _ => Except.error "down")⟩
      ⟨"GET", some ⟨"7"⟩, [], [], "/x"⟩ (200, .num 1) ⟨[]⟩
      = .error "down" :=
  C4_amended_keygen_error_propagates _ _ _ _ _ _ ⟨"7"⟩ rfl rfl (by decide)
    rfl rfl

/-- C9: on a non-GET request, a request with no user, or a user with a
falsy id, the gate passes through untouched: the handler runs, the cache
state is returned unchanged and no backend operation is performed. -/
theorem C9_passthrough_untouched (options : CacheOptions) (req : Request)
    (handler : Nat × JSValue) (cache : CacheState)
    (h : req.method ≠ "GET" ∨ req.user = none
        ∨ ∃ u, req.user = some u ∧ u.id = "") :
    cacheMiddleware options req handler cache
      = .ok ⟨cache, true, handler.1, handler.2, []⟩ := by
  by_cases hm : req.method = "GET"
  · rcases h with h | h | ⟨u, hu, hid⟩
    · exact absurd hm h
    · simp [cacheMiddleware, hm, h]
    · simp [cacheMiddleware, hm, hu, hid]
  · simp [cacheMiddleware, hm]

/-- C9 witness: a POST request with a tenant passes through with no
backend operation and an unchanged cache. -/
theorem C9_witness :
    cacheMiddleware ⟨some "budgets", some 60, none⟩
      ⟨"POST", some ⟨"1"⟩, [], [], "/budgets"⟩ (201, .obj 3)
      ⟨[("user:1:budgets", .obj 9, 600)]⟩
      = .ok ⟨⟨[("user:1:budgets", .obj 9, 600)]⟩, true, 201, .obj 3, []⟩ :=
  C9_passthrough_untouched _ _ _ _ (Or.inl (by decide))

/-- Evaluation of the gate on the miss path (GET, tenant present, no
custom key generator, falsy lookup): the handler runs and the store
happens exactly on a 2xx status. -/
theorem cacheMiddleware_miss (options : CacheOptions) (req : Request)
    (handler : Nat × JSValue) (cache : CacheState) (u : ReqUser)
    (hm : req.method = "GET") (hu : req.user = some u) (hid : u.id ≠ "")
    (hkg : options.keyGenerator = none)
    (hmiss : (getEntry cache.entries (derivedKey options req u)).truthy
      = false) :
    cacheMiddleware options req handler cache =
      if 200 ≤ handler.1 ∧ handler.1 < 300 then
        .ok ⟨⟨setEntry cache.entries (derivedKey options req u) handler.2
              (jsOrNat options.ttl 600)⟩, true, handler.1, handler.2,
             [.get (derivedKey options req u), .set (derivedKey options req u)]⟩
      else
        .ok ⟨cache, true, handler.1, handler.2,
             [.get (derivedKey options req u)]⟩ := by
  simp only [derivedKey] at hmiss ⊢
  by_cases h2 : 200 ≤ handler.1 ∧ handler.1 < 300
  · simp [cacheMiddleware, hm, hu, hid, hkg, hmiss, h2]
  · simp [cacheMiddleware, hm, hu, hid, hkg, hmiss, h2]

/-- C10: when the cache holds an entry under the derived key whose value
is falsy, the gate does not short-circuit: the wrapped handler executes
and its response is the one sent. -/
theorem C10_falsy_cached_value_is_miss (options : CacheOptions)
    (req : Request) (handler : Nat × JSValue) (cache : CacheState)
    (u : ReqUser) (v : JSValue) (k : String) (ttl : Nat)
    (hm : req.method = "GET") (hu : req.user = some u) (hid : u.id ≠ "")
    (hkg : options.keyGenerator = none)
    (hfind : cache.entries.find?
        (fun p => p.1 = derivedKey options req u) = some (k, v, ttl))
    (hv : v.truthy = false) :
    ∃ r, cacheMiddleware options req handler cache = .ok r ∧
      r.handlerRan = true ∧ r.responseStatus = handler.1 ∧
      r.responseBody = handler.2 := by
  have hmiss : (getEntry cache.entries (derivedKey options req u)).truthy
      = false := by
    have hget : getEntry cache.entries (derivedKey options req u) = v := by
      unfold getEntry
      rw [hfind]
    rw [hget]
    exact hv
  rw [cacheMiddleware_miss options req handler cache u hm hu hid hkg hmiss]
  by_cases h2 : 200 ≤ handler.1 ∧ handler.1 < 300
  · rw [if_pos h2]
    exact ⟨_, rfl, rfl, rfl, rfl⟩
  · rw [if_neg h2]
    exact ⟨_, rfl, rfl, rfl, rfl⟩

/-- C10 witness: a stored entry with value 0 under the derived key does
not short-circuit and the handler response is sent. -/
theorem C10_witness :
    ∃ r, cacheMiddleware ⟨some "budgets", some 60, none⟩
        ⟨"GET", some ⟨"1"⟩, [], [], "/budgets"⟩ (200, .obj 5)
        ⟨[("user:1:budgets", .num 0, 600)]⟩ = .ok r ∧
      r.handlerRan = true ∧ r.responseStatus = 200 ∧
      r.responseBody = .obj 5 :=
  C10_falsy_cached_value_is_miss _ _ _ _ ⟨"1"⟩ (.num 0) "user:1:budgets" 600
    rfl rfl (by decide) rfl (by decide) (by decide)

/-- C3: on a miss, the gate stores the handler response under the
derived key exactly when the status code is 2xx: the write operation
occurs if and only if 200 <= status < 300, after a 2xx the stored value
under the key is the response body, and after a non-2xx the cache state
is unchanged. -/
theorem C3_store_iff_2xx (options : CacheOptions) (req : Request)
    (handler : Nat × JSValue) (cache : CacheState) (u : ReqUser)
    (hm : req.method = "GET") (hu : req.user = some u) (hid : u.id ≠ "")
    (hkg : options.keyGenerator = none)
    (hmiss : (getEntry cache.entries (derivedKey options req u)).truthy
      = false) :
    ∃ r, cacheMiddleware options req handler cache = .ok r ∧
      (BackendOp.set (derivedKey options req u) ∈ r.backendOps
        ↔ (200 ≤ handler.1 ∧ handler.1 < 300)) ∧
      ((200 ≤ handler.1 ∧ handler.1 < 300) →
        getEntry r.state.entries (derivedKey options req u) = handler.2) ∧
      (¬ (200 ≤ handler.1 ∧ handler.1 < 300) → r.state = cache) := by
  rw [cacheMiddleware_miss options req handler cache u hm hu hid hkg hmiss]
  by_cases h2 : 200 ≤ handler.1 ∧ handler.1 < 300
  · rw [if_pos h2]
    refine ⟨_, rfl, ?_, ?_, ?_⟩
    · simp [h2]
    · intro _
      exact getEntry_setEntry_self cache.entries _ handler.2 _
    · intro hc
      exact absurd h2 hc
  · rw [if_neg h2]
    refine ⟨_, rfl, ?_, ?_, ?_⟩
    · simp [h2]
    · intro hc
      exact absurd hc h2
    · intro _
      rfl

/-- With duplicate-free keys, the first entry found for a present key is
that key's unique entry. -/
theorem find?_of_nodup_mem : ∀ {l : List (String × JSValue)} {k : String}
    {v : JSValue}, (l.map Prod.fst).Nodup → (k, v) ∈ l →
      l.find? (fun p => p.1 = k) = some (k, v)
  | [], _, _, _, hmem => absurd hmem (List.not_mem_nil _)
  | a :: tl, k, v, hn, hmem => by
    rcases List.mem_cons.mp hmem with heq | htl
    · rw [← heq]
      exact List.find?_cons_of_pos tl (by simp)
    · have hnotk : a.1 ≠ k := by
        intro hk
        have : k ∈ tl.map Prod.fst := List.mem_map.mpr ⟨(k, v), htl, rfl⟩
        rw [List.map_cons, List.nodup_cons, hk] at hn
        exact hn.1 this
      rw [List.find?_cons_of_neg tl (by simpa using hnotk)]
      exact find?_of_nodup_mem (List.nodup_cons.mp (by simpa using hn)).2 htl

/-- Property lookup is invariant under permutation of a duplicate-free
parameter map. -/
theorem jsGet_perm {P1 P2 : List (String × JSValue)} (hp : P1.Perm P2)
    (hn : (P1.map Prod.fst).Nodup) (k : String) :
    jsGet P1 k = jsGet P2 k := by
  unfold jsGet
  cases hf : P1.find? (fun p => p.1 = k) with
  | none =>
    have h2 : P2.find? (fun p => p.1 = k) = none := by
      rw [List.find?_eq_none] at hf ⊢
      intro x hx
      exact hf x (hp.mem_iff.mpr hx)
    rw [h2]
  | some pr =>
    have hmem : pr ∈ P1 := List.mem_of_find?_eq_some hf
    have hpk : pr.1 = k := by simpa using List.find?_some hf
    have hn2 : (P2.map Prod.fst).Nodup := ((hp.map Prod.fst).nodup_iff).mp hn
    have hmem2 : (k, pr.2) ∈ P2 := by
      have hpr : (k, pr.2) = pr := by
        rw [← hpk]
      rw [hpr]
      exact hp.mem_iff.mp hmem
    rw [find?_of_nodup_mem hn2 hmem2]

/-- C6: two parameter maps with the same entries in different insertion
orders derive the same cache key. -/
theorem C6_param_order_irrelevant (t e : String)
    (P1 P2 : List (String × JSValue))
    (hn : (P1.map Prod.fst).Nodup) (hp : P1.Perm P2) :
    generateCacheKey t e P1 = generateCacheKey t e P2 := by
  simp only [generateCacheKey]
  have hkeys : (P1.map Prod.fst).insertionSort KeyOrder
      = (P2.map Prod.fst).insertionSort KeyOrder :=
    List.eq_of_perm_of_sorted
      ((List.perm_insertionSort KeyOrder (P1.map Prod.fst)).trans
        ((hp.map Prod.fst).trans
          (List.perm_insertionSort KeyOrder (P2.map Prod.fst)).symm))
      (List.sorted_insertionSort KeyOrder (P1.map Prod.fst))
      (List.sorted_insertionSort KeyOrder (P2.map Prod.fst))
  rw [hkeys]
  suffices h : ((P2.map Prod.fst).insertionSort KeyOrder).map
        (fun k => k ++ "=" ++ (jsGet P1 k).toTemplateString)
      = ((P2.map Prod.fst).insertionSort KeyOrder).map
        (fun k => k ++ "=" ++ (jsGet P2 k).toTemplateString) by
    rw [h]
  apply List.map_congr_left
  intro k _
  rw [jsGet_perm hp hn k]

/-- C6 witness: the two insertion orders of the same two entries derive
the same key. -/
theorem C6_witness :
    generateCacheKey "1" "budgets" [("b", .num 2), ("a", .num 1)]
      = generateCacheKey "1" "budgets" [("a", .num 1), ("b", .num 2)] :=
  C6_param_order_irrelevant "1" "budgets"
    [("b", .num 2), ("a", .num 1)] [("a", .num 1), ("b", .num 2)]
    (by decide) (by decide)

/-- Characters with no special meaning in the regular-expression dialect
(the parser here treats every character except dot and star as a literal,
which is faithful to the JavaScript engine exactly when no other
metacharacter occurs, hence this guard). -/
def plainChar (c : Char) : Bool :=
  !(['.', '*', '+', '?', '(', ')', '[', ']', '\x7b', '\x7d', '\\',
     '^', '$', '|'].contains c)

/-- A string of plain characters only. -/
def plainString (s : String) : Bool := s.data.all plainChar

/-- The needle occurs as a contiguous segment of the haystack. -/
def containsSeg (needle hay : List Char) : Prop :=
  ∃ t u, hay = t ++ needle ++ u

/-- A plain character is neither star nor dot. -/
theorem plainChar_ne {c : Char} (h : plainChar c = true) :
    c ≠ '*' ∧ c ≠ '.' := by
  constructor
  · intro hc
    rw [hc] at h
    exact absurd h (by decide)
  · intro hc
    rw [hc] at h
    exact absurd h (by decide)

/-- Members of a plain string are neither star nor dot. -/
theorem plainString_mem {s : String} (h : plainString s = true) {c : Char}
    (hc : c ∈ s.data) : c ≠ '*' ∧ c ≠ '.' :=
  plainChar_ne (List.all_eq_true.mp h c hc)

/-- Every character of the invalidation pattern head is plain when the
tenant id and endpoint are. -/
theorem prefPlain (A e : String) (hA : plainString A = true)
    (he : plainString e = true) :
    ∀ c ∈ ("user:" ++ A ++ ":" ++ e).data, c ≠ '*' ∧ c ≠ '.' := by
  intro c hc
  simp only [String.data_append, List.mem_append] at hc
  rcases hc with ((h1 | h2) | h3) | h4
  · simp at h1
    rcases h1 with rfl | rfl | rfl | rfl | rfl <;> exact ⟨by decide, by decide⟩
  · exact plainString_mem hA h2
  · simp at h3
    rw [h3]
    exact ⟨by decide, by decide⟩
  · exact plainString_mem he h4

/-- Replacing the first star in a star-free list with dot star appends
dot star at the end. -/
theorem replaceFirstStarChars_append_star : ∀ l : List Char,
    (∀ c ∈ l, c ≠ '*') →
    replaceFirstStarChars (l ++ ['*']) = l ++ ['.', '*']
  | [], _ => rfl
  | c :: l, h => by
    have hc : c ≠ '*' := h c (List.mem_cons_self c l)
    rw [List.cons_append]
    show (if c = '*' then '.' :: '*' :: (l ++ ['*'])
          else c :: replaceFirstStarChars (l ++ ['*'])) = _
    rw [if_neg hc,
      replaceFirstStarChars_append_star l
        (fun d hd => h d (List.mem_cons_of_mem c hd))]
    rfl

/-- Parsing a cons whose head is not dot and whose next character is not
star yields an unstarred literal piece. -/
theorem parseRegex_lit_cons (c : Char) (cs : List Char) (hc : c ≠ '.')
    (hhd : ∀ d, cs.head? = some d → d ≠ '*') :
    parseRegex (c :: cs) = ⟨RAtom.lit c, false⟩ :: parseRegex cs := by
  cases cs with
  | nil => simp [parseRegex, hc]
  | cons d ds =>
    have hd : d ≠ '*' := hhd d rfl
    simp [parseRegex, hd, hc]

/-- Parsing a star-free dot-free literal head followed by dot star gives
unstarred literal pieces followed by a starred dot. -/
theorem parseRegex_lits_dotstar : ∀ l : List Char,
    (∀ c ∈ l, c ≠ '*' ∧ c ≠ '.') →
    parseRegex (l ++ ['.', '*'])
      = l.map (fun c => ⟨RAtom.lit c, false⟩) ++ [⟨RAtom.dot, true⟩]
  | [], _ => rfl
  | c :: l, h => by
    have hhd : ∀ d, (l ++ ['.', '*']).head? = some d → d ≠ '*' := by
      intro d hd
      cases l with
      | nil =>
        have hd2 : d = '.' := by simpa [eq_comm] using hd
        rw [hd2]
        decide
      | cons c2 l2 =>
        have hd2 : d = c2 := by simpa [eq_comm] using hd
        rw [hd2]
        exact (h c2 (List.mem_cons_of_mem c (List.mem_cons_self c2 l2))).1
    rw [List.cons_append,
      parseRegex_lit_cons c (l ++ ['.', '*'])
        (h c (List.mem_cons_self c l)).2 hhd,
      parseRegex_lits_dotstar l
        (fun d hd => h d (List.mem_cons_of_mem c hd))]
    simp

/-- A lone starred dot matches any character list. -/
theorem matchHere_dotstar : ∀ cs : List Char,
    matchHere [⟨RAtom.dot, true⟩] cs = true := by
  intro cs
  cases cs <;> rfl

/-- Literal pieces followed by a starred dot match exactly the lists that
begin with those literals. -/
theorem matchHere_lits_iff : ∀ (l : List Char) (cs : List Char),
    matchHere ((l.map (fun c => ⟨RAtom.lit c, false⟩))
        ++ [⟨RAtom.dot, true⟩]) cs = true
      ↔ ∃ u, cs = l ++ u
  | [], cs => by
    exact ⟨fun _ => ⟨cs, rfl⟩, fun _ => matchHere_dotstar cs⟩
  | c :: l, [] => by
    simp [matchHere]
  | c :: l, d :: ds => by
    rw [List.map_cons, List.cons_append]
    show (atomMatch (RAtom.lit c) d && matchHere _ ds) = true ↔ _
    rw [Bool.and_eq_true]
    constructor
    · rintro ⟨h1, h2⟩
      have hcd : c = d := by simpa [atomMatch] using h1
      rcases (matchHere_lits_iff l ds).mp h2 with ⟨u, rfl⟩
      exact ⟨u, by rw [hcd, List.cons_append]⟩
    · rintro ⟨u, hu⟩
      rw [List.cons_append] at hu
      injection hu with h1 h2
      exact ⟨by simp [atomMatch, h1], (matchHere_lits_iff l ds).mpr ⟨u, h2⟩⟩

/-- Unanchored search succeeds exactly when the pattern matches at some
position. -/
theorem searchFrom_iff (ps : List RPiece) : ∀ cs : List Char,
    searchFrom ps cs = true ↔ ∃ n, matchHere ps (cs.drop n) = true
  | [] => by
    constructor
    · intro h
      exact ⟨0, h⟩
    · rintro ⟨n, h⟩
      rw [List.drop_nil] at h
      exact h
  | c :: cs => by
    show (matchHere ps (c :: cs) || searchFrom ps cs) = true ↔ _
    rw [Bool.or_eq_true, searchFrom_iff ps cs]
    constructor
    · rintro (h | ⟨n, h⟩)
      · exact ⟨0, h⟩
      · exact ⟨n + 1, h⟩
    · rintro ⟨n, h⟩
      cases n with
      | zero => exact Or.inl h
      | succ m => exact Or.inr ⟨m, h⟩

/-- Segment containment rephrased through drop positions. -/
theorem containsSeg_iff_drop (needle hay : List Char) :
    containsSeg needle hay ↔ ∃ n u, hay.drop n = needle ++ u := by
  constructor
  · rintro ⟨t, u, rfl⟩
    refine ⟨t.length, u, ?_⟩
    rw [List.append_assoc]
    exact List.drop_left t (needle ++ u)
  · rintro ⟨n, u, h⟩
    refine ⟨hay.take n, u, ?_⟩
    rw [List.append_assoc, ← h, List.take_append_drop]

/-- The converted invalidation pattern matches a key exactly when the
pattern head occurs as a contiguous segment of the key: the search is
unanchored, so it is substring containment, not a prefix test. -/
theorem jsMatchTest_eq_contains (pref key : String)
    (h : ∀ c ∈ pref.data, c ≠ '*' ∧ c ≠ '.') :
    jsMatchTest (replaceFirstStar (pref ++ "*")) key = true
      ↔ containsSeg pref.data key.data := by
  have h1 : (replaceFirstStar (pref ++ "*")).data = pref.data ++ ['.', '*'] := by
    show replaceFirstStarChars (pref ++ "*").data = _
    rw [String.data_append pref "*"]
    show replaceFirstStarChars (pref.data ++ ['*']) = _
    exact replaceFirstStarChars_append_star pref.data (fun c hc => (h c hc).1)
  unfold jsMatchTest
  rw [h1, parseRegex_lits_dotstar pref.data h, searchFrom_iff,
    containsSeg_iff_drop]
  constructor
  · rintro ⟨n, hn⟩
    rcases (matchHere_lits_iff pref.data (key.data.drop n)).mp hn with ⟨u, hu⟩
    exact ⟨n, u, hu⟩
  · rintro ⟨n, u, hu⟩
    exact ⟨n, (matchHere_lits_iff pref.data (key.data.drop n)).mpr ⟨u, hu⟩⟩

/-- C2 counterexample: invalidating tenant 1's budgets endpoint deletes a
key that belongs to tenant 2 (the tenant-1 pattern occurs inside tenant
2's parameter segment), although that key does not begin with the
tenant-1 budgets head. -/
theorem C2_counterexample :
    (invalidateUserCache
        ⟨[(generateCacheKey "2" "a" [("user:1:budgets", .num 1)],
           .num 7, 600)]⟩ "1" (some "budgets")).entries = [] ∧
    ("user:1:budgets".data.isPrefixOf
        (generateCacheKey "2" "a" [("user:1:budgets", .num 1)]).data)
      = false :=
  ⟨by decide, by decide⟩

/-- C2 amended: with a plain tenant id and endpoint,
invalidateUserCache(A, e) removes exactly the entries whose key contains
the string user:A:e as a contiguous substring — the unanchored regular
expression search is substring containment, not an anchored prefix test.
Every key that begins with the user:A:e head (all parameter variants of
that endpoint) is removed, but a key of another tenant that embeds that
string is removed as well. -/
theorem C2_amended_substring_invalidation (s : CacheState) (A e : String)
    (hA : plainString A = true) (he : plainString e = true) (hne : e ≠ "") :
    ∀ p ∈ s.entries,
      (p ∈ (invalidateUserCache s A (some e)).entries
        ↔ ¬ containsSeg ("user:" ++ A ++ ":" ++ e).data p.1.data) ∧
      ((∃ rest, p.1.data = ("user:" ++ A ++ ":" ++ e).data ++ rest)
        → p ∉ (invalidateUserCache s A (some e)).entries) := by
  intro p hp
  have hplain := prefPlain A e hA he
  have hm := jsMatchTest_eq_contains ("user:" ++ A ++ ":" ++ e) p.1 hplain
  have hinv : (invalidateUserCache s A (some e)).entries
      = s.entries.filter
          (fun q => ! jsMatchTest
            (replaceFirstStar ("user:" ++ A ++ ":" ++ e ++ "*")) q.1) := by
    simp [invalidateUserCache, hne]
  have hiff : p ∈ (invalidateUserCache s A (some e)).entries
      ↔ ¬ containsSeg ("user:" ++ A ++ ":" ++ e).data p.1.data := by
    rw [hinv, List.mem_filter]
    constructor
    · rintro ⟨_, hf⟩ hcon
      rw [hm.mpr hcon] at hf
      exact absurd hf (by decide)
    · intro hnc
      refine ⟨hp, ?_⟩
      cases hb : jsMatchTest
          (replaceFirstStar ("user:" ++ A ++ ":" ++ e ++ "*")) p.1 with
      | true => exact absurd (hm.mp hb) hnc
      | false => rfl
  refine ⟨hiff, ?_⟩
  rintro ⟨rest, hr⟩ hmem
  exact (hiff.mp hmem) ⟨[], rest, by simpa using hr⟩

/-- C2 witness: a key with the tenant-1 budgets head is removed and a
tenant-2 key without the substring is characterized as kept. -/
theorem C2_witness :
    (("user:1:budgets:limit=10", JSValue.num 7, 600)
        ∈ (invalidateUserCache
            ⟨[(("user:1:budgets:limit=10" : String), JSValue.num 7, 600)]⟩
            "1" (some "budgets")).entries
      ↔ ¬ containsSeg ("user:" ++ "1" ++ ":" ++ "budgets").data
          ("user:1:budgets:limit=10" : String).data) ∧
    ((∃ rest, ("user:1:budgets:limit=10" : String).data
        = ("user:" ++ "1" ++ ":" ++ "budgets").data ++ rest)
      → ("user:1:budgets:limit=10", JSValue.num 7, 600)
          ∉ (invalidateUserCache
              ⟨[(("user:1:budgets:limit=10" : String), JSValue.num 7, 600)]⟩
              "1" (some "budgets")).entries) :=
  C2_amended_substring_invalidation
    ⟨[(("user:1:budgets:limit=10" : String), JSValue.num 7, 600)]⟩
    "1" "budgets" (by decide) (by decide) (by decide)
    ("user:1:budgets:limit=10", JSValue.num 7, 600) (by decide)

/-- C3 witness: a 2xx miss stores the body under the derived key; the
set operation is recorded. -/
theorem C3_witness :
    ∃ r, cacheMiddleware ⟨some "budgets", some 60, none⟩
        ⟨"GET", some ⟨"1"⟩, [], [], "/budgets"⟩ (200, .obj 5) ⟨[]⟩ = .ok r ∧
      (BackendOp.set (derivedKey ⟨some "budgets", some 60, none⟩
          ⟨"GET", some ⟨"1"⟩, [], [], "/budgets"⟩ ⟨"1"⟩) ∈ r.backendOps
        ↔ (200 ≤ (200, JSValue.obj 5).1 ∧ (200, JSValue.obj 5).1 < 300)) ∧
      ((200 ≤ (200, JSValue.obj 5).1 ∧ (200, JSValue.obj 5).1 < 300) →
        getEntry r.state.entries (derivedKey ⟨some "budgets", some 60, none⟩
          ⟨"GET", some ⟨"1"⟩, [], [], "/budgets"⟩ ⟨"1"⟩) = (200, JSValue.obj 5).2) ∧
      (¬ (200 ≤ (200, JSValue.obj 5).1 ∧ (200, JSValue.obj 5).1 < 300) →
        r.state = ⟨[]⟩) :=
  C3_store_iff_2xx ⟨some "budgets", some 60, none⟩
    ⟨"GET", some ⟨"1"⟩, [], [], "/budgets"⟩ (200, .obj 5) ⟨[]⟩ ⟨"1"⟩
    rfl rfl (by decide) rfl (by decide)

end BevenCache
